import Mathlib

/-
  Verification development for the Smart_Instant_Pot vision pipeline.

  Shallow embedding of the pure logic of
    smart_instant_pot/digit_reader.py   (7-segment LED decoding),
    smart_instant_pot/detector.py       (panel localization decision logic),
    smart_instant_pot/image_utils.py    (constrain_size).

  Modelling conventions:
  - A binarized OpenCV image (numpy uint8 2-d array) is modelled as Img:
    a height, a width, and a pixel predicate (true = nonzero pixel).
  - numpy basic slicing img[y0:y1, x0:x1] with step 1 clamps negative and
    out-of-range indices; clampIdx/subImg reproduce that semantics exactly.
  - Python floats are modelled as exact rationals.  Every float the claims
    touch is either a small decimal constant or a ratio of small integers,
    where float and exact rational arithmetic agree.
  - Python int() truncation toward zero is pyInt.
  - Python list.sort(key=...) is a stable sort; it is modelled by
    List.insertionSort with the non-strict comparison on the key, which
    performs exactly the stable insertion.
  - cv2 primitives that the claims do not reason about (color conversion,
    thresholding, contour discovery, SIFT/FLANN feature extraction,
    findHomography, warpPerspective, resize interpolation) are treated as
    oracles: their outputs are universally quantified inputs of the
    embedded functions, and only the properties the source code itself
    imposes on them (e.g. the dsize argument of warpPerspective, the
    k = 2 of knnMatch) are modelled.
-/

namespace SIP

/-- A single-channel raster: height, width, and a predicate telling whether
the pixel at row y, column x is nonzero. -/
structure Img where
  height : ℕ
  width : ℕ
  pix : ℕ → ℕ → Bool

/-- numpy index clamping for a slice bound i on an axis of size n:
negative indices count from the end (clamped below at 0), positive ones are
clamped above at n. -/
def clampIdx (n : ℕ) (i : ℤ) : ℕ :=
  if i < 0 then ((n : ℤ) + i).toNat else min i.toNat n

/-- numpy 2-d slice img[y0:y1, x0:x1] (step 1). -/
def subImg (img : Img) (y0 y1 x0 x1 : ℤ) : Img :=
  let r0 := clampIdx img.height y0
  let r1 := clampIdx img.height y1
  let c0 := clampIdx img.width x0
  let c1 := clampIdx img.width x1
  ⟨r1 - r0, c1 - c0, fun y x => img.pix (r0 + y) (c0 + x)⟩

/-- cv2.countNonZero on the whole raster. -/
def countNonZero (img : Img) : ℕ :=
  ((List.range img.height).map
    (fun y => ((List.range img.width).filter (fun x => img.pix y x)).length)).sum

/-- A rectangle ((x0, y0), (x1, y1)) of Python ints, as used throughout
digit_reader.py. -/
abbrev Rect := (ℤ × ℤ) × (ℤ × ℤ)

/-- The slice img[y0:y1, x0:x1] described by a Rect. -/
def subRect (img : Img) (r : Rect) : Img :=
  subImg img r.1.2 r.2.2 r.1.1 r.2.1

/-- total = (x1-x0)*(y1-y0) in _filled_area. -/
def rectTotal (r : Rect) : ℤ :=
  (r.2.1 - r.1.1) * (r.2.2 - r.1.2)

/-- _filled_area(image, rect) with an explicit rect: the number of filled
pixels in the slice divided by (x1-x0)*(y1-y0), and 0 when that product is
zero. -/
def filledArea (img : Img) (r : Rect) : ℚ :=
  if rectTotal r = 0 then 0
  else (countNonZero (subRect img r) : ℚ) / (rectTotal r : ℚ)

/-- The default rect of _filled_area(image): ((0, 0), (width-1, height-1)). -/
def fullRect (img : Img) : Rect :=
  ((0, 0), ((img.width : ℤ) - 1, (img.height : ℤ) - 1))

/-- _filled_area(image) with rect=None. -/
def filledAreaFull (img : Img) : ℚ :=
  filledArea img (fullRect img)

/-- DigitReaderParameters: the tunable parameters of digit_reader.py that
its pure decoding logic reads (floats as exact rationals). -/
structure DigitReaderParameters where
  colon_retry_crop_percent : ℚ
  segment_filled_area_percent : ℚ
  one_digit_aspect_ratio : ℚ
  one_digit_filled_area : ℚ

/-- The default parameter values 0.8, 0.5, 0.33, 0.66. -/
def defaultDigitParams : DigitReaderParameters :=
  ⟨4/5, 1/2, 33/100, 33/50⟩

/-- aspect = width / height. -/
def aspectOf (img : Img) : ℚ :=
  (img.width : ℚ) / (img.height : ℚ)

/-- ss = int(width/3), the segment size. -/
def ssOf (img : Img) : ℕ := img.width / 3

/-- hss = ss//2. -/
def hssOf (img : Img) : ℕ := ssOf img / 2

/-- vq = int(height/4). -/
def vqOf (img : Img) : ℕ := img.height / 4

/-- x1 = width-1. -/
def x1Of (img : Img) : ℤ := (img.width : ℤ) - 1

/-- The value held by the loop variable y1 after the colon loop finished:
its last assignment is (4+1)*int(height/5). -/
def yBOf (img : Img) : ℤ := 5 * ((img.height / 5 : ℕ) : ℤ)

/-- The condition of the digit-1 special case: the aspect ratio is within
0.1 of one_digit_aspect_ratio and the overall filled area is at least
one_digit_filled_area. -/
def oneDigitCond (p : DigitReaderParameters) (img : Img) : Prop :=
  |aspectOf img - p.one_digit_aspect_ratio| ≤ 1/10 ∧
    p.one_digit_filled_area ≤ filledAreaFull img

instance (p : DigitReaderParameters) (img : Img) : Decidable (oneDigitCond p img) :=
  inferInstanceAs (Decidable (_ ∧ _))

/-- The i-th colon test rect ((x1-ss, i*int(height/5)), (x1, (i+1)*int(height/5))). -/
def colonRect (img : Img) (i : ℕ) : Rect :=
  ((x1Of img - (ssOf img : ℤ), ((i * (img.height / 5) : ℕ) : ℤ)),
   (x1Of img, (((i + 1) * (img.height / 5) : ℕ) : ℤ)))

/-- colon_lit[i]: the i-th vertical fifth of the rightmost third is lit,
i.e. its filled area strictly exceeds segment_filled_area_percent. -/
def colonLit (p : DigitReaderParameters) (img : Img) (i : ℕ) : Prop :=
  p.segment_filled_area_percent < filledArea img (colonRect img i)

instance (p : DigitReaderParameters) (img : Img) (i : ℕ) : Decidable (colonLit p img i) :=
  inferInstanceAs (Decidable (_ < _))

/-- The colon guard: the five fifths are lit exactly in the alternating
pattern off, on, off, on, off. -/
def colonPattern (p : DigitReaderParameters) (img : Img) : Prop :=
  ¬ colonLit p img 0 ∧ colonLit p img 1 ∧ ¬ colonLit p img 2 ∧
    colonLit p img 3 ∧ ¬ colonLit p img 4

instance (p : DigitReaderParameters) (img : Img) : Decidable (colonPattern p img) :=
  inferInstanceAs (Decidable (_ ∧ _))

/-- s0: upper left segment area. -/
def segRect0 (img : Img) : Rect :=
  ((0, ((vqOf img : ℤ) - (hssOf img : ℤ))),
   ((ssOf img : ℤ), ((vqOf img : ℤ) + (hssOf img : ℤ))))

/-- s1: top segment area. -/
def segRect1 (img : Img) : Rect :=
  (((ssOf img : ℤ), 0), (x1Of img - (ssOf img : ℤ), (ssOf img : ℤ)))

/-- s2: upper right segment area. -/
def segRect2 (img : Img) : Rect :=
  ((x1Of img - (ssOf img : ℤ), ((vqOf img : ℤ) - (hssOf img : ℤ))),
   (x1Of img, ((vqOf img : ℤ) + (hssOf img : ℤ))))

/-- s3: middle segment area (vq2 = 2*vq). -/
def segRect3 (img : Img) : Rect :=
  (((ssOf img : ℤ), (2 * (vqOf img : ℤ) - (hssOf img : ℤ))),
   (x1Of img - (ssOf img : ℤ), (2 * (vqOf img : ℤ) + (hssOf img : ℤ))))

/-- s4: lower left segment area (vq3 = 3*vq). -/
def segRect4 (img : Img) : Rect :=
  ((0, (3 * (vqOf img : ℤ) - (hssOf img : ℤ))),
   ((ssOf img : ℤ), (3 * (vqOf img : ℤ) + (hssOf img : ℤ))))

/-- s5: bottom segment area; note that the y1 it reads is the leftover value
of the colon loop variable, 5*int(height/5). -/
def segRect5 (img : Img) : Rect :=
  (((ssOf img : ℤ), yBOf img - (ssOf img : ℤ)),
   (x1Of img - (ssOf img : ℤ), yBOf img))

/-- s6: lower right segment area. -/
def segRect6 (img : Img) : Rect :=
  ((x1Of img - (ssOf img : ℤ), (3 * (vqOf img : ℤ) - (hssOf img : ℤ))),
   (x1Of img, (3 * (vqOf img : ℤ) + (hssOf img : ℤ))))

/-- The seven segment test areas in loop order s0 .. s6. -/
def segRects (img : Img) : List Rect :=
  [segRect0 img, segRect1 img, segRect2 img, segRect3 img,
   segRect4 img, segRect5 img, segRect6 img]

/-- One segment is considered lit when the filled portion of its slice
(measured by _filled_area on the sliced sub-image) is at least
segment_filled_area_percent. -/
def segLit (p : DigitReaderParameters) (img : Img) (r : Rect) : Bool :=
  decide (p.segment_filled_area_percent ≤ filledAreaFull (subRect img r))

/-- The segment loop of _detect_digit: walk the seven areas, fail on a
zero (x1-x0)*(y1-y0) product, otherwise collect the lit flags. -/
def segLoop (p : DigitReaderParameters) (img : Img) : List Rect → Option (List Bool)
  | [] => some []
  | r :: rs =>
    if rectTotal r = 0 then none
    else (segLoop p img rs).map (fun bs => segLit p img r :: bs)

/-- A 7-tuple of segment states in table order: upper left, top, upper
right, middle, lower left, bottom, lower right. -/
abbrev Seg7 := Bool × Bool × Bool × Bool × Bool × Bool × Bool

instance : DecidableEq Seg7 := instDecidableEqProd

/-- The fixed _digit_segments lookup table (absent patterns give none). -/
def digitSegments : Seg7 → Option Char
  | (true, true, true, false, true, true, true) => some '0'
  | (false, false, true, false, false, false, true) => some '1'
  | (false, true, true, true, true, true, false) => some '2'
  | (false, true, true, true, false, true, true) => some '3'
  | (true, false, true, true, false, false, true) => some '4'
  | (true, true, false, true, false, true, true) => some '5'
  | (true, true, false, true, true, true, true) => some '6'
  | (false, true, true, false, false, false, true) => some '7'
  | (true, true, true, true, true, true, true) => some '8'
  | (true, true, true, true, false, true, true) => some '9'
  | (true, false, false, false, true, true, false) => some 'L'
  | (true, true, false, true, true, false, false) => some 'F'
  | (false, false, false, true, true, false, true) => some 'n'
  | _ => none

/-- The sampled 7-tuple of segment booleans of a glyph image. -/
def sampleSeg (p : DigitReaderParameters) (img : Img) : Seg7 :=
  (segLit p img (segRect0 img), segLit p img (segRect1 img),
   segLit p img (segRect2 img), segLit p img (segRect3 img),
   segLit p img (segRect4 img), segLit p img (segRect5 img),
   segLit p img (segRect6 img))

/-- The final table lookup on the collected segment list (none when the
loop failed; the list always has exactly seven entries). -/
def tableOf : Option (List Bool) → Option Char
  | some [b0, b1, b2, b3, b4, b5, b6] => digitSegments (b0, b1, b2, b3, b4, b5, b6)
  | _ => none

/-- The general decoding tail of _detect_digit: run the segment loop and
look the collected tuple up in the table. -/
def segDecode (p : DigitReaderParameters) (img : Img) : Option Char :=
  tableOf (segLoop p img (segRects img))

/-- _detect_digit: the digit-1 special case, then the colon guard, then
general segment decoding. -/
def detectDigit (p : DigitReaderParameters) (img : Img) : Option Char :=
  if oneDigitCond p img then some '1'
  else if colonPattern p img then none
  else segDecode p img

/-- Python int() truncation toward zero of an exact rational. -/
def pyInt (q : ℚ) : ℤ :=
  if 0 ≤ q then ⌊q⌋ else -⌊-q⌋

/-- A digit contour record (contour_area, h, ((x, y), (x+w, y+h))) of
Python ints, as built in read_digits. -/
abbrev DC := ℤ × ℤ × ((ℤ × ℤ) × (ℤ × ℤ))

/-- A cv2.boundingRect result (x, y, w, h); coordinates and sizes are
natural numbers. -/
abbrev Contour := ℕ × ℕ × ℕ × ℕ

/-- Build the (contour_area, h, ((x, y), (x+w, y+h))) record of one contour. -/
def mkDC (c : Contour) : DC :=
  ((c.2.2.1 : ℤ) * (c.2.2.2 : ℤ), (c.2.2.2 : ℤ),
   (((c.1 : ℤ), (c.2.1 : ℤ)), ((c.1 : ℤ) + (c.2.2.1 : ℤ), (c.2.1 : ℤ) + (c.2.2.2 : ℤ))))

/-- Stable descending order on an integer key: a may stay before b exactly
when the key of b is at most the key of a.  List.insertionSort with this
relation is Python list.sort(key=key, reverse=True), which is stable. -/
def keyDesc {α : Type} (key : α → ℤ) : α → α → Prop :=
  fun x y => key y ≤ key x

instance {α : Type} (key : α → ℤ) : DecidableRel (keyDesc key) :=
  fun x y => Int.decLe (key y) (key x)

/-- Stable ascending order on an integer key: Python list.sort(key=key). -/
def keyAsc {α : Type} (key : α → ℤ) : α → α → Prop :=
  fun x y => key x ≤ key y

instance {α : Type} (key : α → ℤ) : DecidableRel (keyAsc key) :=
  fun x y => Int.decLe (key x) (key y)

instance {α : Type} (key : α → ℤ) : IsTotal α (keyAsc key) :=
  ⟨fun x y => Int.le_total (key x) (key y)⟩

instance {α : Type} (key : α → ℤ) : IsTrans α (keyAsc key) :=
  ⟨fun _ _ _ h1 h2 => le_trans h1 h2⟩

/-- The area of a digit contour record. -/
def dcArea (dc : DC) : ℤ := dc.1

/-- The height of a digit contour record. -/
def dcHeight (dc : DC) : ℤ := dc.2.1

/-- The x coordinate of the left edge of a record. -/
def dcX (dc : DC) : ℤ := dc.2.2.1.1

/-- Contour selection of read_digits: build the records, sort by area
descending (stable), keep the first 4 if more than 4 were found, then sort
by ascending x position (stable). -/
def selectContours (cs : List Contour) : List DC :=
  let dcs := cs.map mkDC
  let sorted := List.insertionSort (keyDesc dcArea) dcs
  let pruned := if 4 < sorted.length then sorted.take 4 else sorted
  List.insertionSort (keyAsc dcX) pruned

/-- tallest = running max of the record heights, starting from 0. -/
def tallestOf (dcs : List DC) : ℤ :=
  dcs.foldl (fun t dc => max t (dcHeight dc)) 0

/-- The height-normalization of one record: a record whose height is at
most 60 percent of the tallest height gets the tallest height, a top edge
moved up to p2.y - tallest clamped at 0, a fixed bottom, and a recomputed
area; all other records are unchanged. -/
def normalizeDC (t : ℤ) (dc : DC) : DC :=
  if (dcHeight dc : ℚ) / (t : ℚ) ≤ 6/10 then
    ((dc.2.2.2.1 - dc.2.2.1.1) * t, t,
     ((dc.2.2.1.1, max (dc.2.2.2.2 - t) 0), dc.2.2.2))
  else dc

instance (t : ℤ) (dc : DC) : Decidable ((dcHeight dc : ℚ) / (t : ℚ) ≤ 6/10) :=
  inferInstanceAs (Decidable (_ ≤ _))

/-- The height-normalization pass over the retained records. -/
def heightNormalize (dcs : List DC) : List DC :=
  dcs.map (normalizeDC (tallestOf dcs))

/-- The glyph slice panel_digits[p1.y:p2.y, p1.x:p2.x] of a record. -/
def dcRect (dc : DC) : Rect := dc.2.2

/-- cropped_width = int(colon_retry_crop_percent * (p2.x - p1.x)). -/
def cropWidth (p : DigitReaderParameters) (dc : DC) : ℤ :=
  pyInt (p.colon_retry_crop_percent * ((dc.2.2.2.1 - dc.2.2.1.1 : ℤ) : ℚ))

/-- The retry rect ((p1.x, p1.y), (p1.x + cropped_width, p2.y)). -/
def cropRect (p : DigitReaderParameters) (dc : DC) : Rect :=
  ((dc.2.2.1.1, dc.2.2.1.2), (dc.2.2.1.1 + cropWidth p dc, dc.2.2.2.2))

/-- The value read_digits obtains for one glyph: a first _detect_digit
attempt on the full glyph slice and, if that gave none, exactly one retry
on the slice cropped to the left colon_retry_crop_percent fraction. -/
def glyphValue (p : DigitReaderParameters) (panel : Img) (dc : DC) : Option Char :=
  (detectDigit p (subRect panel (dcRect dc))).elim
    (detectDigit p (subRect panel (cropRect p dc))) some

/-- The decoding loop of read_digits: every glyph must decode (after its
retry); the first glyph that still gives none aborts the whole reading. -/
def decodeAll (p : DigitReaderParameters) (panel : Img) : List DC → Option (List Char)
  | [] => some []
  | dc :: rest =>
    (glyphValue p panel dc).elim none
      (fun c => (decodeAll p panel rest).map (fun s => c :: s))

/-- The pure back half of read_digits, from the digit contour list found on
the binarized panel image onward: select and order the glyph records,
height-normalize them, and decode them left to right. -/
def processContours (p : DigitReaderParameters) (panel : Img) (cs : List Contour) :
    Option (List Char) :=
  decodeAll p panel (heightNormalize (selectContours cs))

/-
  Debug-instrumented variants.  digit_reader.py calls self._debug_plot on
  intermediate rasters; the call forwards to the injected observer when one
  is attached and is a no-op otherwise, and its result is discarded.  The
  D-functions below thread the hook flag and return, next to the ordinary
  result, the list of rasters that would be handed to the observer (titles
  elided).
-/

/-- The segment loop with the per-segment debug emission of the sliced
segment image. -/
def segLoopD (hook : Bool) (p : DigitReaderParameters) (img : Img) :
    List Rect → Option (List Bool) × List Img
  | [] => (some [], [])
  | r :: rs =>
    if rectTotal r = 0 then (none, [])
    else
      let obs := if hook then [subRect img r] else []
      match segLoopD hook p img rs with
      | (some bs, log) => (some (segLit p img r :: bs), obs ++ log)
      | (none, log) => (none, obs ++ log)

/-- _detect_digit with debug emissions. -/
def detectDigitD (hook : Bool) (p : DigitReaderParameters) (img : Img) :
    Option Char × List Img :=
  if oneDigitCond p img then (some '1', [])
  else if colonPattern p img then (none, [])
  else
    let r := segLoopD hook p img (segRects img)
    (tableOf r.1, r.2)

/-- The per-glyph step with emissions: emit the glyph slice, attempt the
detection, and on failure emit the cropped slice and retry once. -/
def glyphValueD (hook : Bool) (p : DigitReaderParameters) (panel : Img) (dc : DC) :
    Option Char × List Img :=
  let dimg := subRect panel (dcRect dc)
  let e1 := if hook then [dimg] else []
  let r1 := detectDigitD hook p dimg
  r1.1.elim
    (let cimg := subRect panel (cropRect p dc)
     let e2 := if hook then [cimg] else []
     let r2 := detectDigitD hook p cimg
     (r2.1, e1 ++ r1.2 ++ e2 ++ r2.2))
    (fun c => (some c, e1 ++ r1.2))

/-- The decoding loop with the per-glyph emissions of the glyph slice and,
on retry, the cropped slice. -/
def decodeAllD (hook : Bool) (p : DigitReaderParameters) (panel : Img) :
    List DC → Option (List Char) × List Img
  | [] => (some [], [])
  | dc :: rest =>
    let g := glyphValueD hook p panel dc
    g.1.elim (none, g.2)
      (fun c =>
        let rr := decodeAllD hook p panel rest
        (rr.1.map (fun s => c :: s), g.2 ++ rr.2))

/-- The back half of read_digits with debug emissions. -/
def processContoursD (hook : Bool) (p : DigitReaderParameters) (panel : Img)
    (cs : List Contour) : Option (List Char) × List Img :=
  decodeAllD hook p panel (heightNormalize (selectContours cs))

/-
  image_utils.constrain_size and detector.Detector.detect_panel.
-/

/-- A grayscale or color raster for the detector side: only its dimensions
matter to the claims; the content is an arbitrary pixel function. -/
structure GImg where
  width : ℕ
  height : ℕ
  pix : ℕ → ℕ → ℕ

/-- constrain_size(img, max_width, max_height): return the image as-is with
scale 1.0 when both dimensions are within the maximums, otherwise downscale
preserving the aspect ratio.  int(max_width / aspect_ratio) with
aspect_ratio = width/height is the floor (maxW * height) / width, exact
where Python computed the same value in floats.  cv2.resize is the oracle
resizePix: the source dictates only the target size. -/
def constrain_size (resizePix : ℕ → ℕ → ℕ) (img : GImg) (maxW maxH : ℕ) :
    GImg × ℚ :=
  if img.width ≤ maxW ∧ img.height ≤ maxH then (img, 1)
  else if img.height < img.width then
    let scaledH := (maxW * img.height) / img.width
    (⟨maxW, scaledH, resizePix⟩, (scaledH : ℚ) / (img.height : ℚ))
  else
    let scaledW := (maxH * img.width) / img.height
    (⟨scaledW, maxH, resizePix⟩, (scaledW : ℚ) / (img.width : ℚ))

/-- DetectorParameters with its defaults 1000, 0.7, 10. -/
structure DetectorParameters where
  max_dimension : ℕ
  match_ratio : ℚ
  min_good_matches : ℕ

/-- The default detector parameter values. -/
def defaultDetectorParameters : DetectorParameters :=
  ⟨1000, 7/10, 10⟩

/-- flann.knnMatch(desc, panel_descriptors, k=2) for one query descriptor,
modelled as exact 2-nearest-neighbour search: the train descriptor indices
ordered by ascending distance, truncated to the first two. -/
def knn2 (nt : ℕ) (d : ℕ → ℚ) : List ℕ :=
  (List.insertionSort (fun i j => d i ≤ d j) (List.range nt)).take 2

instance (d : ℕ → ℚ) : DecidableRel (fun i j => d i ≤ d j) :=
  fun i j => inferInstanceAs (Decidable (d i ≤ d j))

/-- The list comprehension good = [m for m, n in matches if m.distance <
match_ratio * n.distance].  Each per-query match list must unpack into
exactly a pair (m, n); any other shape raises, modelled as Except.error.
A good match is kept as its (queryIdx, trainIdx) pair. -/
def goodFilter (p : DetectorParameters) (dist : ℕ → ℕ → ℚ) (nt : ℕ) :
    List ℕ → Except Unit (List (ℕ × ℕ))
  | [] => .ok []
  | q :: qs =>
    match knn2 nt (dist q) with
    | [i, j] =>
      (goodFilter p dist nt qs).map
        (fun rest =>
          if dist q i < p.match_ratio * dist q j then (q, i) :: rest else rest)
    | _ => .error ()

/-- detect_panel: match the nq frame descriptors against the nt stored
panel descriptors (dist gives the descriptor distances), filter the good
matches by the ratio test, return none when fewer than min_good_matches
survive, and otherwise the input warped (warpPix is the cv2.warpPerspective
oracle) to the stored panel template dimensions tw x th. -/
def detect_panel (p : DetectorParameters) (tw th nq nt : ℕ)
    (dist : ℕ → ℕ → ℚ) (warpPix : ℕ → ℕ → ℕ) : Except Unit (Option GImg) :=
  (goodFilter p dist nt (List.range nq)).map
    (fun good =>
      if good.length < p.min_good_matches then none
      else some ⟨tw, th, warpPix⟩)

/-- The distances of all train descriptors from query q, in ascending
order.  This is the spec-side notion used to state the ratio test: the
head is the nearest distance, the next entry the second-nearest. -/
def sortedDists (nt : ℕ) (d : ℕ → ℚ) : List ℚ :=
  List.insertionSort (· ≤ ·) ((List.range nt).map d)

/-- The nearest distance (spec side). -/
def nearestDist (nt : ℕ) (d : ℕ → ℚ) : ℚ :=
  (sortedDists nt d).getD 0 0

/-- The second-nearest distance (spec side). -/
def secondDist (nt : ℕ) (d : ℕ → ℚ) : ℚ :=
  (sortedDists nt d).getD 1 0

/-
  The table key and value lists, the indexed contour selection used to
  state the stable-pruning claim, and the concrete inputs used by
  witnesses and counterexamples.
-/

/-- The thirteen characters the lookup table can produce (the digit-1
special case produces one of them as well). -/
def tableChars : List Char :=
  ['0', '1', '2', '3', '4', '5', '6', '7', '8', '9', 'L', 'F', 'n']

/-- The thirteen key patterns of the lookup table. -/
def tableKeys : List Seg7 :=
  [(true, true, true, false, true, true, true),
   (false, false, true, false, false, false, true),
   (false, true, true, true, true, true, false),
   (false, true, true, true, false, true, true),
   (true, false, true, true, false, false, true),
   (true, true, false, true, false, true, true),
   (true, true, false, true, true, true, true),
   (false, true, true, false, false, false, true),
   (true, true, true, true, true, true, true),
   (true, true, true, true, false, true, true),
   (true, false, false, false, true, true, false),
   (true, true, false, true, true, false, false),
   (false, false, false, true, true, false, true)]

/-- The glyph records paired with their contour discovery index. -/
def enumDC (cs : List Contour) : List (ℕ × DC) :=
  cs.enum.map (fun ic => (ic.1, mkDC ic.2))

/-- The area key of an indexed record. -/
def areaKeyE : ℕ × DC → ℤ := fun x => dcArea x.2

/-- The x key of an indexed record. -/
def xKeyE : ℕ × DC → ℤ := fun x => dcX x.2

/-- The contour selection carried out on indexed records; the indices are
ghosts recording discovery order and do not enter any comparison. -/
def selectContoursE (cs : List Contour) : List (ℕ × DC) :=
  let sorted := List.insertionSort (keyDesc areaKeyE) (enumDC cs)
  let pruned := if 4 < sorted.length then sorted.take 4 else sorted
  List.insertionSort (keyAsc xKeyE) pruned

/-- The lexicographic order a stable descending sort on distinctly indexed
input produces: strictly larger key first, earlier index first on ties. -/
def lexQ {α : Type} (key : α → ℤ) (idx : α → ℕ) : α → α → Prop :=
  fun x y => key y < key x ∨ (key x = key y ∧ idx x < idx y)

/-- A fully lit 12x20 panel. -/
def panelLit : Img := ⟨20, 12, fun _ _ => true⟩

/-- The glyph record of the whole 12x20 panel. -/
def dcLit : DC := (240, 20, ((0, 0), (12, 20)))

/-- A fully dark 12x20 panel. -/
def panelDark : Img := ⟨20, 12, fun _ _ => false⟩

/-- A 3-wide, 9-tall glyph that is fully lit except for an alternating
colon-style column at x = 1: dark at rows 0, 2, 4.  It satisfies the
digit-1 special case and shows the colon pattern at the same time. -/
def img39 : Img :=
  ⟨9, 3, fun y x => !(x == 1 && (y == 0 || y == 2 || y == 4))⟩

/-- A 6-wide, 10-tall glyph whose only lit pixels form two colon dots in
the rightmost third (rows 2-3 and 6-7 of columns 3-4). -/
def img610 : Img :=
  ⟨10, 6, fun y x => (x == 3 || x == 4) && (y == 2 || y == 3 || y == 6 || y == 7)⟩

/-- The concrete record list of the C7 witness: a 12x20 glyph and a short
2x6 glyph whose height 6 is at most 60 percent of 20. -/
def dcsW : List DC := [(240, 20, ((0, 0), (12, 20))), (12, 6, ((15, 14), (17, 20)))]

/-- The witness distance table: every query is at distance 1 from train
descriptor 0 and at distance 2 from every other. -/
def distW : ℕ → ℕ → ℚ := fun _ t => if t = 0 then 1 else 2

/-
  Claim C8: constrain_size.
-/

/-- Claim C8: constrain_size returns images already within the maximums
unchanged with scale factor 1.0 (so it never upscales and is idempotent on
them), and downscales oversized images preserving aspect ratio: 200x200 to
100x100 max gives 100x100 at scale 0.5, a 200-wide 100-tall image gives
100x50 at scale 0.5, and a 100-wide 200-tall image gives 50x100 at scale
0.5. -/
theorem constrain_size_spec :
    (∀ (resizePix : ℕ → ℕ → ℕ) (img : GImg) (maxW maxH : ℕ),
       img.width ≤ maxW → img.height ≤ maxH →
       constrain_size resizePix img maxW maxH = (img, 1)) ∧
    (∀ (resizePix px : ℕ → ℕ → ℕ),
       (constrain_size resizePix ⟨200, 200, px⟩ 100 100).1.width = 100 ∧
       (constrain_size resizePix ⟨200, 200, px⟩ 100 100).1.height = 100 ∧
       (constrain_size resizePix ⟨200, 200, px⟩ 100 100).2 = 1/2) ∧
    (∀ (resizePix px : ℕ → ℕ → ℕ),
       (constrain_size resizePix ⟨200, 100, px⟩ 100 100).1.width = 100 ∧
       (constrain_size resizePix ⟨200, 100, px⟩ 100 100).1.height = 50 ∧
       (constrain_size resizePix ⟨200, 100, px⟩ 100 100).2 = 1/2) ∧
    (∀ (resizePix px : ℕ → ℕ → ℕ),
       (constrain_size resizePix ⟨100, 200, px⟩ 100 100).1.width = 50 ∧
       (constrain_size resizePix ⟨100, 200, px⟩ 100 100).1.height = 100 ∧
       (constrain_size resizePix ⟨100, 200, px⟩ 100 100).2 = 1/2) := by
  refine ⟨?_, ?_, ?_, ?_⟩
  · intro resizePix img maxW maxH h1 h2
    rw [constrain_size, if_pos ⟨h1, h2⟩]
  · intro resizePix px
    refine ⟨?_, ?_, ?_⟩ <;> norm_num [constrain_size]
  · intro resizePix px
    refine ⟨?_, ?_, ?_⟩ <;> norm_num [constrain_size]
  · intro resizePix px
    refine ⟨?_, ?_, ?_⟩ <;> norm_num [constrain_size]

/-- Witness for C8 at a concrete in-range image. -/
theorem constrain_size_spec_witness :
    (50 ≤ 100 ∧ 50 ≤ 100) ∧
    constrain_size (fun _ _ => 0) ⟨50, 50, fun _ _ => 0⟩ 100 100
      = (⟨50, 50, fun _ _ => 0⟩, 1) :=
  ⟨⟨by decide, by decide⟩,
   constrain_size_spec.1 (fun _ _ => 0) ⟨50, 50, fun _ _ => 0⟩ 100 100
     (by decide) (by decide)⟩

/-
  Claim C2: detect_panel when descriptor extraction yields zero features.
-/

/-- Counterexample to C2 as stated: with one frame descriptor and zero
reference-template descriptors, the per-match unpacking of the k=2 match
list cannot succeed and detect_panel fails instead of returning NotFound. -/
theorem detect_panel_zero_template_raises :
    detect_panel defaultDetectorParameters 3 4 1 0 (fun _ _ => 0) (fun _ _ => 0)
      = .error () := rfl

/-- C2 amended: a frame with zero features produces zero matches, hence
zero good matches, and detect_panel returns NotFound (whenever the good
match minimum is positive, as by default); but zero features in the
reference template make every k=2 match list malformed, and any frame with
at least one feature then makes detect_panel fail rather than return
NotFound. -/
theorem detect_panel_zero_features :
    (∀ (p : DetectorParameters) (tw th nt : ℕ) (dist : ℕ → ℕ → ℚ)
       (warpPix : ℕ → ℕ → ℕ), 1 ≤ p.min_good_matches →
       detect_panel p tw th 0 nt dist warpPix = .ok none) ∧
    (∀ (p : DetectorParameters) (tw th nq : ℕ) (dist : ℕ → ℕ → ℚ)
       (warpPix : ℕ → ℕ → ℕ), 1 ≤ nq →
       detect_panel p tw th nq 0 dist warpPix = .error ()) := by
  constructor
  · intro p tw th nt dist warpPix h
    rw [detect_panel]
    have h0 : goodFilter p dist nt (List.range 0) = .ok [] := rfl
    rw [h0]
    simp [Except.map]
    omega
  · intro p tw th nq dist warpPix h
    obtain ⟨k, rfl⟩ : ∃ k, nq = k + 1 := ⟨nq - 1, by omega⟩
    rw [detect_panel, List.range_succ_eq_map]
    rfl

/-- Witness for C2 (amended) at concrete inputs. -/
theorem detect_panel_zero_features_witness :
    (1 ≤ defaultDetectorParameters.min_good_matches ∧
      detect_panel defaultDetectorParameters 5 6 0 3 (fun _ _ => 0) (fun _ _ => 0)
        = .ok none) ∧
    (1 ≤ 2 ∧
      detect_panel defaultDetectorParameters 5 6 2 0 (fun _ _ => 0) (fun _ _ => 0)
        = .error ()) :=
  ⟨⟨by decide,
    detect_panel_zero_features.1 defaultDetectorParameters 5 6 3 (fun _ _ => 0)
      (fun _ _ => 0) (by decide)⟩,
   ⟨by decide,
    detect_panel_zero_features.2 defaultDetectorParameters 5 6 2 (fun _ _ => 0)
      (fun _ _ => 0) (by decide)⟩⟩

/-
  Claim C9: the debug observation hook has no effect on results.
-/

/-- The value component of the instrumented segment loop is the plain
segment loop, for either hook state. -/
theorem segLoopD_fst (hook : Bool) (p : DigitReaderParameters) (img : Img) :
    ∀ rs : List Rect, (segLoopD hook p img rs).1 = segLoop p img rs := by
  intro rs
  induction rs with
  | nil => rfl
  | cons r rs ih =>
    by_cases hz : rectTotal r = 0
    · simp [segLoopD, segLoop, hz]
    · rw [segLoopD, segLoop, if_neg hz, if_neg hz]
      rcases hsl : segLoopD hook p img rs with ⟨os, log⟩
      rw [hsl] at ih
      rw [← ih]
      cases os <;> simp

/-- The value component of the instrumented _detect_digit is the plain
_detect_digit, for either hook state. -/
theorem detectDigitD_fst (hook : Bool) (p : DigitReaderParameters) (img : Img) :
    (detectDigitD hook p img).1 = detectDigit p img := by
  rw [detectDigitD, detectDigit]
  by_cases h1 : oneDigitCond p img
  · rw [if_pos h1, if_pos h1]
  · rw [if_neg h1, if_neg h1]
    by_cases h2 : colonPattern p img
    · rw [if_pos h2, if_pos h2]
    · rw [if_neg h2, if_neg h2]
      show tableOf (segLoopD hook p img (segRects img)).1 = segDecode p img
      rw [segLoopD_fst, segDecode]

/-- The value component of the instrumented per-glyph step is the plain
per-glyph value, for either hook state. -/
theorem glyphValueD_fst (hook : Bool) (p : DigitReaderParameters) (panel : Img)
    (dc : DC) : (glyphValueD hook p panel dc).1 = glyphValue p panel dc := by
  rcases hd : detectDigitD hook p (subRect panel (dcRect dc)) with ⟨v1, l1⟩
  have h1 : detectDigit p (subRect panel (dcRect dc)) = v1 := by
    rw [← detectDigitD_fst hook, hd]
  rw [glyphValueD, glyphValue]
  simp only [hd, h1]
  cases v1 with
  | some c => rfl
  | none => simp only [Option.elim_none, detectDigitD_fst]

/-- The value component of the instrumented decoding loop is the plain
decoding loop, for either hook state. -/
theorem decodeAllD_fst (hook : Bool) (p : DigitReaderParameters) (panel : Img) :
    ∀ dcs : List DC, (decodeAllD hook p panel dcs).1 = decodeAll p panel dcs := by
  intro dcs
  induction dcs with
  | nil => rfl
  | cons dc rest ih =>
    rcases hg : glyphValueD hook p panel dc with ⟨v, l⟩
    have h1 : glyphValue p panel dc = v := by
      rw [← glyphValueD_fst hook, hg]
    rw [decodeAllD, decodeAll]
    simp only [hg, h1]
    cases v with
    | none => rfl
    | some c =>
      simp only [ih]
      rfl

/-- Claim C9: read_digits computes the same reading whether or not a debug
observer is attached; the observer only receives intermediate rasters and
has no effect on the result. -/
theorem debug_hook_no_effect (hook hook2 : Bool) (p : DigitReaderParameters)
    (panel : Img) (cs : List Contour) :
    (processContoursD hook p panel cs).1 = processContours p panel cs ∧
    (processContoursD hook p panel cs).1 = (processContoursD hook2 p panel cs).1 := by
  constructor
  · rw [processContoursD, processContours, decodeAllD_fst]
  · rw [processContoursD, processContoursD, decodeAllD_fst, decodeAllD_fst]

/-
  Claim C10: shape of a returned reading.
-/

set_option maxRecDepth 4000 in
/-- Every character the table produces is one of the thirteen. -/
theorem digitSegments_chars (t : Seg7) (c : Char) (h : digitSegments t = some c) :
    c ∈ tableChars := by
  have key : ∀ t : Seg7,
      ((digitSegments t).map (fun c => decide (c ∈ tableChars))).getD true = true := by
    decide
  have := key t
  rw [h] at this
  simp only [Option.map_some', Option.getD_some] at this
  exact of_decide_eq_true this

/-- Every character the table lookup on a collected segment list produces
is one of the thirteen. -/
theorem tableOf_chars (os : Option (List Bool)) (c : Char) (h : tableOf os = some c) :
    c ∈ tableChars := by
  rcases os with _ | bs
  · simp [tableOf] at h
  · rcases bs with _ | ⟨b0, bs⟩
    · simp [tableOf] at h
    rcases bs with _ | ⟨b1, bs⟩
    · simp [tableOf] at h
    rcases bs with _ | ⟨b2, bs⟩
    · simp [tableOf] at h
    rcases bs with _ | ⟨b3, bs⟩
    · simp [tableOf] at h
    rcases bs with _ | ⟨b4, bs⟩
    · simp [tableOf] at h
    rcases bs with _ | ⟨b5, bs⟩
    · simp [tableOf] at h
    rcases bs with _ | ⟨b6, bs⟩
    · simp [tableOf] at h
    rcases bs with _ | ⟨b7, bs⟩
    · exact digitSegments_chars _ _ h
    · simp [tableOf] at h

/-- Every character _detect_digit produces is one of the thirteen. -/
theorem detectDigit_chars (p : DigitReaderParameters) (img : Img) (c : Char)
    (h : detectDigit p img = some c) : c ∈ tableChars := by
  rw [detectDigit] at h
  by_cases h1 : oneDigitCond p img
  · rw [if_pos h1] at h
    cases h
    decide
  · rw [if_neg h1] at h
    by_cases h2 : colonPattern p img
    · rw [if_pos h2] at h
      cases h
    · rw [if_neg h2, segDecode] at h
      exact tableOf_chars _ _ h

/-- Every character a per-glyph decode (with its retry) produces is one of
the thirteen. -/
theorem glyphValue_chars (p : DigitReaderParameters) (panel : Img) (dc : DC)
    (c : Char) (h : glyphValue p panel dc = some c) : c ∈ tableChars := by
  rw [glyphValue] at h
  rcases hv : detectDigit p (subRect panel (dcRect dc)) with _ | c1
  · rw [hv, Option.elim_none] at h
    exact detectDigit_chars _ _ _ h
  · rw [hv, Option.elim_some] at h
    cases h
    exact detectDigit_chars _ _ _ hv

/-- A successful decode has exactly one character per glyph record. -/
theorem decodeAll_length (p : DigitReaderParameters) (panel : Img) :
    ∀ (dcs : List DC) (r : List Char), decodeAll p panel dcs = some r →
      r.length = dcs.length := by
  intro dcs
  induction dcs with
  | nil =>
    intro r h
    rw [decodeAll] at h
    cases h
    rfl
  | cons dc rest ih =>
    intro r h
    rw [decodeAll] at h
    rcases hv : glyphValue p panel dc with _ | c
    · rw [hv, Option.elim_none] at h
      cases h
    · rw [hv, Option.elim_some] at h
      rcases Option.map_eq_some'.mp h with ⟨s, hs, rfl⟩
      simp [ih s hs]

/-- Every character of a successful decode is one of the thirteen. -/
theorem decodeAll_chars (p : DigitReaderParameters) (panel : Img) :
    ∀ (dcs : List DC) (r : List Char), decodeAll p panel dcs = some r →
      ∀ c ∈ r, c ∈ tableChars := by
  intro dcs
  induction dcs with
  | nil =>
    intro r h
    rw [decodeAll] at h
    cases h
    intro c hc
    cases hc
  | cons dc rest ih =>
    intro r h
    rw [decodeAll] at h
    rcases hv : glyphValue p panel dc with _ | c
    · rw [hv, Option.elim_none] at h
      cases h
    · rw [hv, Option.elim_some] at h
      rcases Option.map_eq_some'.mp h with ⟨s, hs, rfl⟩
      intro c2 hc2
      rcases List.mem_cons.mp hc2 with rfl | hmem
      · exact glyphValue_chars _ _ _ _ hv
      · exact ih s hs c2 hmem

/-- At most four glyph records survive the selection. -/
theorem selectContours_length_le (cs : List Contour) :
    (selectContours cs).length ≤ 4 := by
  rw [selectContours]
  have h1 := (List.perm_insertionSort (keyDesc dcArea) (cs.map mkDC)).length_eq
  by_cases h : 4 < (List.insertionSort (keyDesc dcArea) (cs.map mkDC)).length
  · rw [if_pos h]
    have h2 := (List.perm_insertionSort (keyAsc dcX)
      ((List.insertionSort (keyDesc dcArea) (cs.map mkDC)).take 4)).length_eq
    rw [h2, List.length_take]
    omega
  · rw [if_neg h]
    have h2 := (List.perm_insertionSort (keyAsc dcX)
      (List.insertionSort (keyDesc dcArea) (cs.map mkDC))).length_eq
    omega

/-- C10 amended: a non-NotFound reading has at most 4 characters, all drawn
from the thirteen table characters; but it can be the empty string (when
the binarized panel yields no glyph contours the decode loop never runs),
so the non-emptiness half of the claim fails. -/
theorem reading_char_set_and_length (p : DigitReaderParameters) (panel : Img)
    (cs : List Contour) (r : List Char) (h : processContours p panel cs = some r) :
    r.length ≤ 4 ∧ ∀ c ∈ r, c ∈ tableChars := by
  rw [processContours] at h
  constructor
  · have hlen := decodeAll_length p panel _ _ h
    have : (heightNormalize (selectContours cs)).length = (selectContours cs).length := by
      rw [heightNormalize, List.length_map]
    rw [hlen, this]
    exact selectContours_length_le cs
  · exact decodeAll_chars p panel _ _ h

/-- Counterexample to C10 as stated: with no glyph contours the decode loop
body never runs and read_digits returns the empty (non-None) reading. -/
theorem reading_empty_possible :
    processContours defaultDigitParams ⟨0, 0, fun _ _ => false⟩ [] = some [] ∧
    ([] : List Char).length = 0 :=
  ⟨rfl, rfl⟩

/-
  Evaluation helpers: reduce concrete filled-area facts to a pixel count
  (decidable) plus a rational comparison (norm_num).
-/

/-- Evaluate _filled_area with an explicit rect from its pixel count and
its total. -/
theorem filledArea_eval (img : Img) (r : Rect) (c : ℕ) (t : ℤ)
    (hc : countNonZero (subRect img r) = c) (ht : rectTotal r = t)
    (h0 : ¬ t = 0) : filledArea img r = (c : ℚ) / (t : ℚ) := by
  rw [filledArea, ht, hc, if_neg h0]

/-- Evaluate _filled_area with rect=None from its pixel count and total. -/
theorem filledAreaFull_eval (img : Img) (c : ℕ) (t : ℤ)
    (hc : countNonZero (subRect img (fullRect img)) = c)
    (ht : rectTotal (fullRect img) = t) (h0 : ¬ t = 0) :
    filledAreaFull img = (c : ℚ) / (t : ℚ) := by
  rw [filledAreaFull, filledArea_eval img (fullRect img) c t hc ht h0]

/-- Evaluate the aspect ratio from the dimensions. -/
theorem aspectOf_eval (img : Img) (w h : ℕ) (hw : img.width = w)
    (hh : img.height = h) : aspectOf img = (w : ℚ) / (h : ℚ) := by
  rw [aspectOf, hw, hh]

/-- A segment is lit once its count and total compare above the threshold. -/
theorem segLit_true (p : DigitReaderParameters) (img : Img) (r : Rect)
    (c : ℕ) (t : ℤ)
    (hc : countNonZero (subRect (subRect img r) (fullRect (subRect img r))) = c)
    (ht : rectTotal (fullRect (subRect img r)) = t) (h0 : ¬ t = 0)
    (hcmp : p.segment_filled_area_percent ≤ (c : ℚ) / (t : ℚ)) :
    segLit p img r = true := by
  rw [segLit, decide_eq_true_iff, filledAreaFull,
    filledArea_eval (subRect img r) (fullRect (subRect img r)) c t hc ht h0]
  exact hcmp

/-- A segment is unlit once its count and total compare below the
threshold. -/
theorem segLit_false (p : DigitReaderParameters) (img : Img) (r : Rect)
    (c : ℕ) (t : ℤ)
    (hc : countNonZero (subRect (subRect img r) (fullRect (subRect img r))) = c)
    (ht : rectTotal (fullRect (subRect img r)) = t) (h0 : ¬ t = 0)
    (hcmp : ¬ p.segment_filled_area_percent ≤ (c : ℚ) / (t : ℚ)) :
    segLit p img r = false := by
  rw [segLit, decide_eq_false_iff_not, filledAreaFull,
    filledArea_eval (subRect img r) (fullRect (subRect img r)) c t hc ht h0]
  exact hcmp

/-- The general decoding path of _detect_digit: when neither special case
fires and all seven sampling areas have a nonzero total, the result is
exactly the table lookup of the sampled 7-tuple. -/
theorem detectDigit_general (p : DigitReaderParameters) (img : Img)
    (hOne : ¬ oneDigitCond p img) (hColon : ¬ colonPattern p img)
    (hA : ∀ r ∈ segRects img, rectTotal r ≠ 0) :
    detectDigit p img = digitSegments (sampleSeg p img) := by
  have a0 := hA (segRect0 img) (by simp [segRects])
  have a1 := hA (segRect1 img) (by simp [segRects])
  have a2 := hA (segRect2 img) (by simp [segRects])
  have a3 := hA (segRect3 img) (by simp [segRects])
  have a4 := hA (segRect4 img) (by simp [segRects])
  have a5 := hA (segRect5 img) (by simp [segRects])
  have a6 := hA (segRect6 img) (by simp [segRects])
  rw [detectDigit, if_neg hOne, if_neg hColon, segDecode, segRects,
    segLoop, if_neg a0, segLoop, if_neg a1, segLoop, if_neg a2,
    segLoop, if_neg a3, segLoop, if_neg a4, segLoop, if_neg a5,
    segLoop, if_neg a6, segLoop]
  simp only [Option.map_some']
  rw [sampleSeg]
  rfl

/-- The lit panel glyph slice does not satisfy the digit-1 special case:
its aspect ratio 12/20 is not within 0.1 of 0.33. -/
theorem subLit_not_one : ¬ oneDigitCond defaultDigitParams (subRect panelLit (dcRect dcLit)) := by
  intro h
  have ha := h.1
  rw [aspectOf_eval (subRect panelLit (dcRect dcLit)) 12 20 rfl rfl] at ha
  have hb := le_trans (le_abs_self _) ha
  norm_num [defaultDigitParams] at hb

/-- The lit panel glyph slice does not show the colon pattern: its first
fifth is lit. -/
theorem subLit_not_colon : ¬ colonPattern defaultDigitParams (subRect panelLit (dcRect dcLit)) := by
  intro h
  apply h.1
  rw [colonLit, filledArea_eval (subRect panelLit (dcRect dcLit))
    (colonRect (subRect panelLit (dcRect dcLit)) 0) 16 16 (by decide) (by decide) (by decide)]
  norm_num [defaultDigitParams]

/-- The lit panel glyph slice decodes through the general path to the all
lit pattern, the digit 8. -/
theorem subLit_detect :
    detectDigit defaultDigitParams (subRect panelLit (dcRect dcLit)) = some '8' := by
  rw [detectDigit_general defaultDigitParams _ subLit_not_one subLit_not_colon (by decide),
    sampleSeg,
    segLit_true defaultDigitParams _ (segRect0 (subRect panelLit (dcRect dcLit))) 9 9
      (by decide) (by decide) (by decide) (by norm_num [defaultDigitParams]),
    segLit_true defaultDigitParams _ (segRect1 (subRect panelLit (dcRect dcLit))) 6 6
      (by decide) (by decide) (by decide) (by norm_num [defaultDigitParams]),
    segLit_true defaultDigitParams _ (segRect2 (subRect panelLit (dcRect dcLit))) 9 9
      (by decide) (by decide) (by decide) (by norm_num [defaultDigitParams]),
    segLit_true defaultDigitParams _ (segRect3 (subRect panelLit (dcRect dcLit))) 6 6
      (by decide) (by decide) (by decide) (by norm_num [defaultDigitParams]),
    segLit_true defaultDigitParams _ (segRect4 (subRect panelLit (dcRect dcLit))) 9 9
      (by decide) (by decide) (by decide) (by norm_num [defaultDigitParams]),
    segLit_true defaultDigitParams _ (segRect5 (subRect panelLit (dcRect dcLit))) 6 6
      (by decide) (by decide) (by decide) (by norm_num [defaultDigitParams]),
    segLit_true defaultDigitParams _ (segRect6 (subRect panelLit (dcRect dcLit))) 9 9
      (by decide) (by decide) (by decide) (by norm_num [defaultDigitParams])]
  rfl

/-- The 3x9 glyph satisfies the digit-1 special case: aspect 1/3 is within
0.1 of 0.33 and 13 of the 16 counted pixels are lit. -/
theorem img39_one : oneDigitCond defaultDigitParams img39 := by
  constructor
  · rw [aspectOf_eval img39 3 9 rfl rfl,
      abs_of_nonneg (by norm_num [defaultDigitParams])]
    norm_num [defaultDigitParams]
  · rw [filledAreaFull_eval img39 13 16 (by decide) (by decide) (by decide)]
    norm_num [defaultDigitParams]

/-- The 3x9 glyph decodes as the digit 1 through the special case. -/
theorem img39_detect : detectDigit defaultDigitParams img39 = some '1' := by
  rw [detectDigit, if_pos img39_one]

/-- The 3x9 glyph shows the colon pattern off, on, off, on, off. -/
theorem img39_colon : colonPattern defaultDigitParams img39 := by
  refine ⟨?_, ?_, ?_, ?_, ?_⟩
  · rw [colonLit, filledArea_eval img39 (colonRect img39 0) 0 1
      (by decide) (by decide) (by decide)]
    norm_num [defaultDigitParams]
  · rw [colonLit, filledArea_eval img39 (colonRect img39 1) 1 1
      (by decide) (by decide) (by decide)]
    norm_num [defaultDigitParams]
  · rw [colonLit, filledArea_eval img39 (colonRect img39 2) 0 1
      (by decide) (by decide) (by decide)]
    norm_num [defaultDigitParams]
  · rw [colonLit, filledArea_eval img39 (colonRect img39 3) 1 1
      (by decide) (by decide) (by decide)]
    norm_num [defaultDigitParams]
  · rw [colonLit, filledArea_eval img39 (colonRect img39 4) 0 1
      (by decide) (by decide) (by decide)]
    norm_num [defaultDigitParams]

/-- The 6x10 glyph does not satisfy the digit-1 special case: its aspect
ratio 6/10 is not within 0.1 of 0.33. -/
theorem img610_not_one : ¬ oneDigitCond defaultDigitParams img610 := by
  intro h
  have ha := h.1
  rw [aspectOf_eval img610 6 10 rfl rfl] at ha
  have hb := le_trans (le_abs_self _) ha
  norm_num [defaultDigitParams] at hb

/-- The 6x10 glyph shows the colon pattern off, on, off, on, off. -/
theorem img610_colon : colonPattern defaultDigitParams img610 := by
  refine ⟨?_, ?_, ?_, ?_, ?_⟩
  · rw [colonLit, filledArea_eval img610 (colonRect img610 0) 0 4
      (by decide) (by decide) (by decide)]
    norm_num [defaultDigitParams]
  · rw [colonLit, filledArea_eval img610 (colonRect img610 1) 4 4
      (by decide) (by decide) (by decide)]
    norm_num [defaultDigitParams]
  · rw [colonLit, filledArea_eval img610 (colonRect img610 2) 0 4
      (by decide) (by decide) (by decide)]
    norm_num [defaultDigitParams]
  · rw [colonLit, filledArea_eval img610 (colonRect img610 3) 4 4
      (by decide) (by decide) (by decide)]
    norm_num [defaultDigitParams]
  · rw [colonLit, filledArea_eval img610 (colonRect img610 4) 0 4
      (by decide) (by decide) (by decide)]
    norm_num [defaultDigitParams]

/-- The dark panel glyph slice does not satisfy the digit-1 special case:
nothing is lit. -/
theorem subDark_not_one : ¬ oneDigitCond defaultDigitParams (subRect panelDark (dcRect dcLit)) := by
  intro h
  have hf := h.2
  rw [filledAreaFull_eval (subRect panelDark (dcRect dcLit)) 0 209
    (by decide) (by decide) (by decide)] at hf
  norm_num [defaultDigitParams] at hf

/-- The dark panel glyph slice does not show the colon pattern: its second
fifth is not lit. -/
theorem subDark_not_colon : ¬ colonPattern defaultDigitParams (subRect panelDark (dcRect dcLit)) := by
  intro h
  apply absurd h.2.1
  rw [colonLit, filledArea_eval (subRect panelDark (dcRect dcLit))
    (colonRect (subRect panelDark (dcRect dcLit)) 1) 0 16 (by decide) (by decide) (by decide)]
  norm_num [defaultDigitParams]

/-- The dark panel glyph slice decodes to Unknown: the all-unlit pattern is
not in the table. -/
theorem subDark_detect :
    detectDigit defaultDigitParams (subRect panelDark (dcRect dcLit)) = none := by
  rw [detectDigit_general defaultDigitParams _ subDark_not_one subDark_not_colon (by decide),
    sampleSeg,
    segLit_false defaultDigitParams _ (segRect0 (subRect panelDark (dcRect dcLit))) 0 9
      (by decide) (by decide) (by decide) (by norm_num [defaultDigitParams]),
    segLit_false defaultDigitParams _ (segRect1 (subRect panelDark (dcRect dcLit))) 0 6
      (by decide) (by decide) (by decide) (by norm_num [defaultDigitParams]),
    segLit_false defaultDigitParams _ (segRect2 (subRect panelDark (dcRect dcLit))) 0 9
      (by decide) (by decide) (by decide) (by norm_num [defaultDigitParams]),
    segLit_false defaultDigitParams _ (segRect3 (subRect panelDark (dcRect dcLit))) 0 6
      (by decide) (by decide) (by decide) (by norm_num [defaultDigitParams]),
    segLit_false defaultDigitParams _ (segRect4 (subRect panelDark (dcRect dcLit))) 0 9
      (by decide) (by decide) (by decide) (by norm_num [defaultDigitParams]),
    segLit_false defaultDigitParams _ (segRect5 (subRect panelDark (dcRect dcLit))) 0 6
      (by decide) (by decide) (by decide) (by norm_num [defaultDigitParams]),
    segLit_false defaultDigitParams _ (segRect6 (subRect panelDark (dcRect dcLit))) 0 9
      (by decide) (by decide) (by decide) (by norm_num [defaultDigitParams])]
  rfl

/-- The retry crop width of the 12-wide glyph record: int(0.8 * 12) = 9. -/
theorem cropWidth_dcLit : cropWidth defaultDigitParams dcLit = 9 := by
  rw [cropWidth, pyInt, if_pos (by norm_num [defaultDigitParams, dcLit])]
  rw [Int.floor_eq_iff]
  constructor <;> norm_num [defaultDigitParams, dcLit]

/-- The retry rect of the 12-wide glyph record. -/
theorem cropRect_dcLit : cropRect defaultDigitParams dcLit = ((0, 0), (9, 20)) := by
  rw [cropRect, cropWidth_dcLit]
  rfl

/-- The cropped dark slice does not satisfy the digit-1 special case. -/
theorem subCropDark_not_one :
    ¬ oneDigitCond defaultDigitParams (subRect panelDark ((0, 0), (9, 20))) := by
  intro h
  have hf := h.2
  rw [filledAreaFull_eval (subRect panelDark ((0, 0), (9, 20))) 0 152
    (by decide) (by decide) (by decide)] at hf
  norm_num [defaultDigitParams] at hf

/-- The cropped dark slice does not show the colon pattern. -/
theorem subCropDark_not_colon :
    ¬ colonPattern defaultDigitParams (subRect panelDark ((0, 0), (9, 20))) := by
  intro h
  apply absurd h.2.1
  rw [colonLit, filledArea_eval (subRect panelDark ((0, 0), (9, 20)))
    (colonRect (subRect panelDark ((0, 0), (9, 20))) 1) 0 12
    (by decide) (by decide) (by decide)]
  norm_num [defaultDigitParams]

/-- The cropped dark slice also decodes to Unknown. -/
theorem subCropDark_detect :
    detectDigit defaultDigitParams (subRect panelDark ((0, 0), (9, 20))) = none := by
  rw [detectDigit_general defaultDigitParams _ subCropDark_not_one subCropDark_not_colon (by decide),
    sampleSeg,
    segLit_false defaultDigitParams _ (segRect0 (subRect panelDark ((0, 0), (9, 20)))) 0 2
      (by decide) (by decide) (by decide) (by norm_num [defaultDigitParams]),
    segLit_false defaultDigitParams _ (segRect1 (subRect panelDark ((0, 0), (9, 20)))) 0 2
      (by decide) (by decide) (by decide) (by norm_num [defaultDigitParams]),
    segLit_false defaultDigitParams _ (segRect2 (subRect panelDark ((0, 0), (9, 20)))) 0 2
      (by decide) (by decide) (by decide) (by norm_num [defaultDigitParams]),
    segLit_false defaultDigitParams _ (segRect3 (subRect panelDark ((0, 0), (9, 20)))) 0 1
      (by decide) (by decide) (by decide) (by norm_num [defaultDigitParams]),
    segLit_false defaultDigitParams _ (segRect4 (subRect panelDark ((0, 0), (9, 20)))) 0 2
      (by decide) (by decide) (by decide) (by norm_num [defaultDigitParams]),
    segLit_false defaultDigitParams _ (segRect5 (subRect panelDark ((0, 0), (9, 20)))) 0 2
      (by decide) (by decide) (by decide) (by norm_num [defaultDigitParams]),
    segLit_false defaultDigitParams _ (segRect6 (subRect panelDark ((0, 0), (9, 20)))) 0 2
      (by decide) (by decide) (by decide) (by norm_num [defaultDigitParams])]
  rfl

/-- The dark glyph record fails both the full attempt and the retry. -/
theorem glyphDark_none : glyphValue defaultDigitParams panelDark dcLit = none := by
  rw [glyphValue, subDark_detect, Option.elim_none, cropRect_dcLit, subCropDark_detect]

/-- The single lit-panel contour survives selection and height
normalization unchanged. -/
theorem normLit : heightNormalize (selectContours [(0, 0, 12, 20)]) = [dcLit] := by
  have hsel : selectContours [(0, 0, 12, 20)] = [dcLit] := rfl
  have ht : tallestOf [dcLit] = 20 := rfl
  have hc : ¬ ((dcHeight dcLit : ℚ) / ((20 : ℤ) : ℚ) ≤ 6/10) := by
    norm_num [dcHeight, dcLit]
  rw [hsel, heightNormalize, ht, List.map_cons, List.map_nil, normalizeDC, if_neg hc]

/-- The lit panel with its single whole-panel contour reads as the single
digit 8. -/
theorem processLit :
    processContours defaultDigitParams panelLit [(0, 0, 12, 20)] = some ['8'] := by
  rw [processContours, normLit, decodeAll, glyphValue, subLit_detect, Option.elim_some,
    decodeAll]
  rfl

/-- A glyph whose full attempt and retry both fail aborts the whole
reading, wherever it sits in the list. -/
theorem decodeAll_abort (p : DigitReaderParameters) (panel : Img) :
    ∀ dcs : List DC, (∃ dc ∈ dcs, glyphValue p panel dc = none) →
      decodeAll p panel dcs = none := by
  intro dcs
  induction dcs with
  | nil =>
    rintro ⟨dc, h, _⟩
    cases h
  | cons d rest ih =>
    rintro ⟨dc, hmem, hnone⟩
    rw [decodeAll]
    rcases List.mem_cons.mp hmem with rfl | hmem2
    · rw [hnone, Option.elim_none]
    · rcases hv : glyphValue p panel d with _ | c
      · rw [Option.elim_none]
      · rw [Option.elim_some, ih ⟨dc, hmem2, hnone⟩, Option.map_none']

/-
  Claim C1: the general decoder path and the lookup table.
-/

set_option maxRecDepth 8000 in
/-- Claim C1: on the general decoder path (digit-1 special case and colon
guard not taken, all seven sampling areas of nonzero total) the result is
exactly the lookup of the sampled 7-tuple in the fixed table; the table
maps exactly 13 distinct patterns to the characters 0-9, L, F, n, and
every tuple outside it decodes to Unknown. -/
theorem general_decode_table :
    (∀ (p : DigitReaderParameters) (img : Img), 0 < img.height →
       ¬ oneDigitCond p img → ¬ colonPattern p img →
       (∀ r ∈ segRects img, rectTotal r ≠ 0) →
       detectDigit p img = digitSegments (sampleSeg p img)) ∧
    (∀ t : Seg7, t ∉ tableKeys → digitSegments t = none) ∧
    (∀ t ∈ tableKeys, (digitSegments t).isSome = true) ∧
    tableKeys.length = 13 ∧
    tableKeys.Nodup ∧
    tableKeys.map digitSegments = tableChars.map some := by
  refine ⟨?_, by decide, by decide, by decide, by decide, by decide⟩
  intro p img _ hOne hColon hA
  exact detectDigit_general p img hOne hColon hA

/-- Witness for C1 on the fully lit 12x20 glyph slice, which decodes to 8. -/
theorem general_decode_table_witness :
    (0 < (subRect panelLit (dcRect dcLit)).height ∧
     ¬ oneDigitCond defaultDigitParams (subRect panelLit (dcRect dcLit)) ∧
     ¬ colonPattern defaultDigitParams (subRect panelLit (dcRect dcLit)) ∧
     (∀ r ∈ segRects (subRect panelLit (dcRect dcLit)), rectTotal r ≠ 0)) ∧
    detectDigit defaultDigitParams (subRect panelLit (dcRect dcLit))
      = digitSegments (sampleSeg defaultDigitParams (subRect panelLit (dcRect dcLit))) ∧
    detectDigit defaultDigitParams (subRect panelLit (dcRect dcLit)) = some '8' :=
  ⟨⟨by decide, subLit_not_one, subLit_not_colon, by decide⟩,
   general_decode_table.1 defaultDigitParams _ (by decide) subLit_not_one
     subLit_not_colon (by decide),
   subLit_detect⟩

/-
  Claim C6: the digit-1 special case.
-/

/-- Claim C6: a glyph whose aspect ratio is within 0.1 of the configured
target and whose filled portion exceeds the configured threshold decodes
as 1 immediately (the colon state of the glyph is irrelevant); the default
parameters are 0.33 and 0.66. -/
theorem one_digit_shortcut :
    (∀ (p : DigitReaderParameters) (img : Img), 0 < img.height →
       |aspectOf img - p.one_digit_aspect_ratio| ≤ 1/10 →
       p.one_digit_filled_area < filledAreaFull img →
       detectDigit p img = some '1') ∧
    defaultDigitParams.one_digit_aspect_ratio = 33/100 ∧
    defaultDigitParams.one_digit_filled_area = 33/50 := by
  refine ⟨?_, rfl, rfl⟩
  intro p img _ ha hf
  rw [detectDigit, if_pos ⟨ha, le_of_lt hf⟩]

/-- The 3x9 glyph exceeds the fill threshold strictly. -/
theorem img39_filled_strict :
    defaultDigitParams.one_digit_filled_area < filledAreaFull img39 := by
  rw [filledAreaFull_eval img39 13 16 (by decide) (by decide) (by decide)]
  norm_num [defaultDigitParams]

/-- Witness for C6 on the 3x9 glyph. -/
theorem one_digit_shortcut_witness :
    (0 < img39.height ∧
     |aspectOf img39 - defaultDigitParams.one_digit_aspect_ratio| ≤ 1/10 ∧
     defaultDigitParams.one_digit_filled_area < filledAreaFull img39) ∧
    detectDigit defaultDigitParams img39 = some '1' :=
  ⟨⟨by decide, img39_one.1, img39_filled_strict⟩,
   one_digit_shortcut.1 defaultDigitParams img39 (by decide) img39_one.1
     img39_filled_strict⟩

/-
  Claim C4: the colon guard, the single retry, and the whole-reading abort.
-/

/-- Counterexample to C4 as stated: the 3x9 glyph shows the exact colon
pattern off, on, off, on, off, yet a single decode attempt returns the
digit 1 (not Unknown), because the digit-1 special case runs first. -/
theorem colon_pattern_decodes_one :
    colonPattern defaultDigitParams img39 ∧
    detectDigit defaultDigitParams img39 = some '1' ∧
    detectDigit defaultDigitParams img39 ≠ none :=
  ⟨img39_colon, img39_detect, by rw [img39_detect]; exact Option.noConfusion⟩

/-- C4 amended: on a glyph that does not satisfy the digit-1 special case,
the colon pattern makes the decode attempt return Unknown; a failed full
attempt gets exactly one retry, on the slice cropped to the left
colon_retry_crop_percent fraction (default 0.8); and when any glyph fails
both attempts the whole reading is Unknown, never a partial string. -/
theorem colon_guard_and_retry :
    (∀ (p : DigitReaderParameters) (img : Img), 0 < img.height →
       ¬ oneDigitCond p img → colonPattern p img → detectDigit p img = none) ∧
    (∀ (p : DigitReaderParameters) (panel : Img) (dc : DC),
       detectDigit p (subRect panel (dcRect dc)) = none →
       glyphValue p panel dc = detectDigit p (subRect panel (cropRect p dc))) ∧
    (∀ (p : DigitReaderParameters) (panel : Img) (dcs : List DC),
       (∃ dc ∈ dcs, glyphValue p panel dc = none) → decodeAll p panel dcs = none) ∧
    (∀ (p : DigitReaderParameters) (panel : Img) (cs : List Contour),
       (∃ dc ∈ heightNormalize (selectContours cs), glyphValue p panel dc = none) →
       processContours p panel cs = none) ∧
    defaultDigitParams.colon_retry_crop_percent = 4/5 := by
  refine ⟨?_, ?_, decodeAll_abort, ?_, rfl⟩
  · intro p img _ hOne hColon
    rw [detectDigit, if_neg hOne, if_pos hColon]
  · intro p panel dc h
    rw [glyphValue, h, Option.elim_none]
  · intro p panel cs h
    rw [processContours]
    exact decodeAll_abort _ _ _ h

/-- Witness for C4 (amended): the colon-dot glyph decodes to Unknown; the
dark glyph record falls back to its single retry and, failing both, makes
the whole reading Unknown. -/
theorem colon_guard_and_retry_witness :
    (0 < img610.height ∧ ¬ oneDigitCond defaultDigitParams img610 ∧
     colonPattern defaultDigitParams img610 ∧
     detectDigit defaultDigitParams img610 = none) ∧
    (detectDigit defaultDigitParams (subRect panelDark (dcRect dcLit)) = none ∧
     glyphValue defaultDigitParams panelDark dcLit
       = detectDigit defaultDigitParams (subRect panelDark (cropRect defaultDigitParams dcLit))) ∧
    (glyphValue defaultDigitParams panelDark dcLit = none ∧
     decodeAll defaultDigitParams panelDark [dcLit] = none) ∧
    processContours defaultDigitParams panelDark [(0, 0, 12, 20)] = none :=
  ⟨⟨by decide, img610_not_one, img610_colon,
    colon_guard_and_retry.1 defaultDigitParams img610 (by decide) img610_not_one
      img610_colon⟩,
   ⟨subDark_detect,
    colon_guard_and_retry.2.1 defaultDigitParams panelDark dcLit subDark_detect⟩,
   ⟨glyphDark_none,
    colon_guard_and_retry.2.2.1 defaultDigitParams panelDark [dcLit]
      ⟨dcLit, by simp, glyphDark_none⟩⟩,
   colon_guard_and_retry.2.2.2.1 defaultDigitParams panelDark [(0, 0, 12, 20)]
     ⟨dcLit, by rw [normLit]; simp, glyphDark_none⟩⟩

/-- Witness for C10 (amended): the lit panel reading is the single table
character 8, of length 1 at most 4. -/
theorem reading_char_set_witness :
    processContours defaultDigitParams panelLit [(0, 0, 12, 20)] = some ['8'] ∧
    (['8'] : List Char).length ≤ 4 ∧ ∀ c ∈ (['8'] : List Char), c ∈ tableChars :=
  ⟨processLit,
   (reading_char_set_and_length defaultDigitParams panelLit [(0, 0, 12, 20)] ['8']
     processLit).1,
   (reading_char_set_and_length defaultDigitParams panelLit [(0, 0, 12, 20)] ['8']
     processLit).2⟩

/-
  Claim C7: height normalization.
-/

/-- The running maximum only grows. -/
theorem foldl_max_start (l : List DC) :
    ∀ a : ℤ, a ≤ l.foldl (fun t dc => max t (dcHeight dc)) a := by
  induction l with
  | nil => intro a; exact le_refl a
  | cons d t ih =>
    intro a
    exact le_trans (le_max_left a (dcHeight d)) (ih (max a (dcHeight d)))

/-- The running maximum dominates every height seen. -/
theorem foldl_max_ge (l : List DC) :
    ∀ (a : ℤ), ∀ dc ∈ l, dcHeight dc ≤ l.foldl (fun t dc => max t (dcHeight dc)) a := by
  induction l with
  | nil =>
    intro a dc h
    cases h
  | cons d t ih =>
    intro a dc h
    rcases List.mem_cons.mp h with rfl | h2
    · exact le_trans (le_max_right a (dcHeight dc)) (foldl_max_start t _)
    · exact ih _ dc h2

/-- The running maximum is either its start or an attained height. -/
theorem foldl_max_attain (l : List DC) :
    ∀ a : ℤ, l.foldl (fun t dc => max t (dcHeight dc)) a = a ∨
      ∃ dc ∈ l, dcHeight dc = l.foldl (fun t dc => max t (dcHeight dc)) a := by
  induction l with
  | nil => intro a; exact Or.inl rfl
  | cons d t ih =>
    intro a
    rcases ih (max a (dcHeight d)) with heq | ⟨dc, hmem, hdc⟩
    · rcases le_total a (dcHeight d) with hle | hle
      · right
        refine ⟨d, List.mem_cons_self d t, ?_⟩
        rw [List.foldl_cons, heq, max_eq_right hle]
      · left
        rw [List.foldl_cons, heq, max_eq_left hle]
    · right
      exact ⟨dc, List.mem_cons_of_mem d hmem, hdc⟩

/-- Every height is at most the tallest. -/
theorem tallestOf_ge (dcs : List DC) : ∀ dc ∈ dcs, dcHeight dc ≤ tallestOf dcs :=
  foldl_max_ge dcs 0

/-- A positive tallest height is attained by some record. -/
theorem tallestOf_attain (dcs : List DC) (hT : 0 < tallestOf dcs) :
    ∃ dc ∈ dcs, dcHeight dc = tallestOf dcs := by
  rcases foldl_max_attain dcs 0 with heq | h
  · rw [tallestOf] at hT
    rw [heq] at hT
    exact absurd hT (lt_irrefl 0)
  · exact h

/-- The float comparison height/tallest <= 0.6 is the integer comparison
10*height <= 6*tallest, for a positive tallest. -/
theorem normalizeCond_iff (t h : ℤ) (hT : 0 < t) :
    ((h : ℚ) / (t : ℚ) ≤ 6/10) ↔ 10 * h ≤ 6 * t := by
  have ht' : (0 : ℚ) < (t : ℚ) := by exact_mod_cast hT
  rw [div_le_div_iff₀ ht' (by norm_num : (0:ℚ) < 10)]
  constructor
  · intro hx
    have hx' : h * 10 ≤ 6 * t := by exact_mod_cast hx
    linarith
  · intro hx
    have hx' : (h : ℚ) * 10 ≤ 6 * (t : ℚ) := by exact_mod_cast (by linarith : h * 10 ≤ 6 * t)
    exact hx'

/-- Claim C7: with T the maximum glyph height of a non-empty retained set
(positive, as every pipeline bounding box has positive height), a record of
height at most 60 percent of T gets height exactly T, its bottom and x
bounds unchanged and its top moved to bottom minus T clamped at 0; taller
records are unchanged. -/
theorem height_normalization (dcs : List DC) (_hne : dcs ≠ [])
    (hT : 0 < tallestOf dcs) :
    (∀ dc ∈ dcs, dcHeight dc ≤ tallestOf dcs) ∧
    (∃ dc ∈ dcs, dcHeight dc = tallestOf dcs) ∧
    heightNormalize dcs = dcs.map (fun dc =>
      if 10 * dcHeight dc ≤ 6 * tallestOf dcs then
        ((dc.2.2.2.1 - dc.2.2.1.1) * tallestOf dcs, tallestOf dcs,
         ((dc.2.2.1.1, max (dc.2.2.2.2 - tallestOf dcs) 0), dc.2.2.2))
      else dc) ∧
    (∀ dc : DC, 10 * dcHeight dc ≤ 6 * tallestOf dcs →
       tallestOf dcs ≤ dc.2.2.2.2 →
       (normalizeDC (tallestOf dcs) dc).2.2.2.2
           - (normalizeDC (tallestOf dcs) dc).2.2.1.2 = tallestOf dcs ∧
       (normalizeDC (tallestOf dcs) dc).2.2.2 = dc.2.2.2 ∧
       (normalizeDC (tallestOf dcs) dc).2.2.1.1 = dc.2.2.1.1 ∧
       (normalizeDC (tallestOf dcs) dc).2.1 = tallestOf dcs) ∧
    (∀ dc : DC, ¬ (10 * dcHeight dc ≤ 6 * tallestOf dcs) →
       normalizeDC (tallestOf dcs) dc = dc) := by
  refine ⟨tallestOf_ge dcs, tallestOf_attain dcs hT, ?_, ?_, ?_⟩
  · rw [heightNormalize]
    have hfun : normalizeDC (tallestOf dcs) = fun dc : DC =>
        if 10 * dcHeight dc ≤ 6 * tallestOf dcs then
          ((dc.2.2.2.1 - dc.2.2.1.1) * tallestOf dcs, tallestOf dcs,
           ((dc.2.2.1.1, max (dc.2.2.2.2 - tallestOf dcs) 0), dc.2.2.2))
        else dc := by
      funext dc
      rw [normalizeDC]
      exact if_congr (normalizeCond_iff (tallestOf dcs) (dcHeight dc) hT) rfl rfl
    rw [hfun]
  · intro dc hcond hbot
    rw [normalizeDC, if_pos ((normalizeCond_iff (tallestOf dcs) (dcHeight dc) hT).mpr hcond)]
    dsimp only
    refine ⟨?_, rfl, rfl, rfl⟩
    rw [max_eq_left (by omega : (0:ℤ) ≤ dc.2.2.2.2 - tallestOf dcs)]
    omega
  · intro dc hcond
    rw [normalizeDC,
      if_neg (fun hx => hcond ((normalizeCond_iff (tallestOf dcs) (dcHeight dc) hT).mp hx))]

/-- Witness for C7 at a concrete two-record set with tallest height 20. -/
theorem height_normalization_witness :
    dcsW ≠ [] ∧ 0 < tallestOf dcsW ∧
    ((∀ dc ∈ dcsW, dcHeight dc ≤ tallestOf dcsW) ∧
     (∃ dc ∈ dcsW, dcHeight dc = tallestOf dcsW) ∧
     heightNormalize dcsW = dcsW.map (fun dc =>
       if 10 * dcHeight dc ≤ 6 * tallestOf dcsW then
         ((dc.2.2.2.1 - dc.2.2.1.1) * tallestOf dcsW, tallestOf dcsW,
          ((dc.2.2.1.1, max (dc.2.2.2.2 - tallestOf dcsW) 0), dc.2.2.2))
       else dc) ∧
     (∀ dc : DC, 10 * dcHeight dc ≤ 6 * tallestOf dcsW →
        tallestOf dcsW ≤ dc.2.2.2.2 →
        (normalizeDC (tallestOf dcsW) dc).2.2.2.2
            - (normalizeDC (tallestOf dcsW) dc).2.2.1.2 = tallestOf dcsW ∧
        (normalizeDC (tallestOf dcsW) dc).2.2.2 = dc.2.2.2 ∧
        (normalizeDC (tallestOf dcsW) dc).2.2.1.1 = dc.2.2.1.1 ∧
        (normalizeDC (tallestOf dcsW) dc).2.1 = tallestOf dcsW) ∧
     (∀ dc : DC, ¬ (10 * dcHeight dc ≤ 6 * tallestOf dcsW) →
        normalizeDC (tallestOf dcsW) dc = dc)) :=
  ⟨by simp [dcsW], by decide, height_normalization dcsW (by simp [dcsW]) (by decide)⟩

/-
  Claim C3: the ratio test, the good-match minimum, and the output size.
-/

/-- Mapping commutes with an ordered insert when the two relations agree
through the map. -/
theorem orderedInsert_map_rel {α β : Type} (f : α → β) (r : β → β → Prop)
    [DecidableRel r] (r2 : α → α → Prop) [DecidableRel r2]
    (hr : ∀ a b, r2 a b ↔ r (f a) (f b)) (a : α) :
    ∀ l : List α, (List.orderedInsert r2 a l).map f
      = List.orderedInsert r (f a) (l.map f) := by
  intro l
  induction l with
  | nil => rfl
  | cons b t ih =>
    rw [List.orderedInsert, List.map_cons, List.orderedInsert]
    by_cases h : r2 a b
    · rw [if_pos h, if_pos ((hr a b).mp h)]
      rfl
    · rw [if_neg h, if_neg (fun hx => h ((hr a b).mpr hx)), List.map_cons, ih]

/-- Mapping commutes with the insertion sort when the two relations agree
through the map. -/
theorem insertionSort_map_rel {α β : Type} (f : α → β) (r : β → β → Prop)
    [DecidableRel r] (r2 : α → α → Prop) [DecidableRel r2]
    (hr : ∀ a b, r2 a b ↔ r (f a) (f b)) :
    ∀ l : List α, (List.insertionSort r2 l).map f
      = List.insertionSort r (l.map f) := by
  intro l
  induction l with
  | nil => rfl
  | cons b t ih =>
    rw [List.insertionSort, List.map_cons, List.insertionSort, ← ih,
      orderedInsert_map_rel f r r2 hr]

/-- The sorted distance list is the distance image of the index sort knn2
takes its neighbours from. -/
theorem sortedDists_eq (nt : ℕ) (d : ℕ → ℚ) :
    sortedDists nt d
      = (List.insertionSort (fun i j => d i ≤ d j) (List.range nt)).map d := by
  rw [sortedDists,
    insertionSort_map_rel d (· ≤ ·) (fun i j => d i ≤ d j) (fun _ _ => Iff.rfl)]

/-- With at least two train descriptors, knnMatch with k=2 yields exactly a
nearest and a second-nearest neighbour. -/
theorem knn2_shape (nt : ℕ) (d : ℕ → ℚ) (h : 2 ≤ nt) :
    ∃ i j, knn2 nt d = [i, j] ∧ d i = nearestDist nt d ∧ d j = secondDist nt d := by
  have hlen : (List.insertionSort (fun i j => d i ≤ d j) (List.range nt)).length = nt := by
    rw [(List.perm_insertionSort _ _).length_eq, List.length_range]
  rcases hsort : List.insertionSort (fun i j => d i ≤ d j) (List.range nt)
    with _ | ⟨i, _ | ⟨j, t⟩⟩
  · rw [hsort] at hlen
    simp at hlen
    omega
  · rw [hsort] at hlen
    simp at hlen
    omega
  · have hs : sortedDists nt d = d i :: d j :: t.map d := by
      rw [sortedDists_eq, hsort, List.map_cons, List.map_cons]
    refine ⟨i, j, ?_, ?_, ?_⟩
    · rw [knn2, hsort]
      rfl
    · rw [nearestDist, hs]
      rfl
    · rw [secondDist, hs]
      rfl

/-- With at least two train descriptors the good-match comprehension never
fails, and the queries it keeps are exactly those passing the ratio test
against the nearest and second-nearest distances. -/
theorem goodFilter_spec (p : DetectorParameters) (dist : ℕ → ℕ → ℚ) (nt : ℕ)
    (h : 2 ≤ nt) :
    ∀ qs : List ℕ, ∃ g : List (ℕ × ℕ), goodFilter p dist nt qs = .ok g ∧
      g.map Prod.fst = qs.filter (fun q =>
        decide (nearestDist nt (dist q) < p.match_ratio * secondDist nt (dist q))) := by
  intro qs
  induction qs with
  | nil => exact ⟨[], rfl, rfl⟩
  | cons q qs ih =>
    rcases ih with ⟨g, hg, hmap⟩
    rcases knn2_shape nt (dist q) h with ⟨i, j, hknn, hdi, hdj⟩
    rw [goodFilter]
    rw [hknn]
    simp only
    rw [hg]
    by_cases hc : dist q i < p.match_ratio * dist q j
    · refine ⟨(q, i) :: g, ?_, ?_⟩
      · simp only [Except.map]
        rw [if_pos hc]
      · have hcond : decide (nearestDist nt (dist q)
            < p.match_ratio * secondDist nt (dist q)) = true := by
          rw [← hdi, ← hdj]
          exact decide_eq_true hc
        rw [List.map_cons, hmap, List.filter_cons, hcond]
        simp
    · refine ⟨g, ?_, ?_⟩
      · simp only [Except.map]
        rw [if_neg hc]
      · have hcond : decide (nearestDist nt (dist q)
            < p.match_ratio * secondDist nt (dist q)) = false := by
          rw [← hdi, ← hdj]
          exact decide_eq_false hc
        rw [hmap, List.filter_cons, hcond]
        simp

/-- Claim C3: with at least two stored panel descriptors, the good match
set is computed by the strict ratio test against the nearest and the
second-nearest distances; fewer good matches than min_good_matches gives
NotFound, and otherwise the warped output raster has exactly the stored
template dimensions; the defaults are 0.7 and 10. -/
theorem ratio_test_and_dims (p : DetectorParameters) (tw th nq nt : ℕ)
    (dist : ℕ → ℕ → ℚ) (warpPix : ℕ → ℕ → ℕ) (h : 2 ≤ nt) :
    ∃ good : List (ℕ × ℕ), goodFilter p dist nt (List.range nq) = .ok good ∧
      (∀ q : ℕ, q ∈ good.map Prod.fst ↔ q < nq ∧
        nearestDist nt (dist q) < p.match_ratio * secondDist nt (dist q)) ∧
      (good.length < p.min_good_matches →
        detect_panel p tw th nq nt dist warpPix = .ok none) ∧
      (p.min_good_matches ≤ good.length →
        ∃ out : GImg, detect_panel p tw th nq nt dist warpPix = .ok (some out) ∧
          out.width = tw ∧ out.height = th) ∧
      defaultDetectorParameters.match_ratio = 7/10 ∧
      defaultDetectorParameters.min_good_matches = 10 := by
  rcases goodFilter_spec p dist nt h (List.range nq) with ⟨g, hg, hmap⟩
  refine ⟨g, hg, ?_, ?_, ?_, rfl, rfl⟩
  · intro q
    rw [hmap]
    simp [List.mem_filter, List.mem_range]
  · intro hlt
    rw [detect_panel, hg]
    simp only [Except.map]
    rw [if_pos hlt]
  · intro hge
    rw [detect_panel, hg]
    refine ⟨⟨tw, th, warpPix⟩, ?_, rfl, rfl⟩
    simp only [Except.map]
    rw [if_neg (Nat.not_lt.mpr hge)]

/-- Witness for C3 at one query descriptor against two train descriptors. -/
theorem ratio_test_and_dims_witness :
    2 ≤ 2 ∧
    (∃ good : List (ℕ × ℕ),
      goodFilter defaultDetectorParameters distW 2 (List.range 1) = .ok good ∧
      (∀ q : ℕ, q ∈ good.map Prod.fst ↔ q < 1 ∧
        nearestDist 2 (distW q)
          < defaultDetectorParameters.match_ratio * secondDist 2 (distW q)) ∧
      (good.length < defaultDetectorParameters.min_good_matches →
        detect_panel defaultDetectorParameters 3 4 1 2 distW (fun _ _ => 0)
          = .ok none) ∧
      (defaultDetectorParameters.min_good_matches ≤ good.length →
        ∃ out : GImg, detect_panel defaultDetectorParameters 3 4 1 2 distW
            (fun _ _ => 0) = .ok (some out) ∧ out.width = 3 ∧ out.height = 4) ∧
      defaultDetectorParameters.match_ratio = 7/10 ∧
      defaultDetectorParameters.min_good_matches = 10) :=
  ⟨by decide,
   ratio_test_and_dims defaultDetectorParameters 3 4 1 2 distW (fun _ _ => 0)
     (by decide)⟩

/-
  Claim C5: pruning to the 4 largest areas (stable on ties) and left to
  right ordering.
-/

/-- Inserting an element with an index smaller than everything present
preserves the lexicographic invariant. -/
theorem orderedInsert_lexQ {α : Type} (key : α → ℤ) (idx : α → ℕ) (a : α) :
    ∀ l : List α, l.Pairwise (lexQ key idx) → (∀ y ∈ l, idx a < idx y) →
      (List.orderedInsert (keyDesc key) a l).Pairwise (lexQ key idx) := by
  intro l
  induction l with
  | nil =>
    intro _ _
    simp [List.orderedInsert]
  | cons b t ih =>
    intro hp hidx
    rw [List.orderedInsert]
    by_cases h : keyDesc key a b
    · rw [if_pos h]
      have h' : key b ≤ key a := h
      constructor
      · intro y hy
        rcases List.mem_cons.mp hy with rfl | hyt
        · rcases lt_or_eq_of_le h' with hlt | heq
          · exact Or.inl hlt
          · exact Or.inr ⟨heq.symm, hidx _ (List.mem_cons_self _ _)⟩
        · have hby := (List.pairwise_cons.mp hp).1 y hyt
          rcases hby with hlt | ⟨heq, _⟩
          · exact Or.inl (lt_of_lt_of_le hlt h')
          · have hy' : key y ≤ key a := heq ▸ h'
            rcases lt_or_eq_of_le hy' with hlt2 | heq2
            · exact Or.inl hlt2
            · exact Or.inr ⟨heq2.symm, hidx y (List.mem_cons_of_mem b hyt)⟩
      · exact hp
    · rw [if_neg h]
      have h' : key a < key b := not_le.mp h
      constructor
      · intro y hy
        rcases (List.mem_orderedInsert (keyDesc key)).mp hy with rfl | hyt
        · exact Or.inl h'
        · exact (List.pairwise_cons.mp hp).1 y hyt
      · exact ih (List.pairwise_cons.mp hp).2
          (fun y hy => hidx y (List.mem_cons_of_mem b hy))

/-- The stable descending sort of a distinctly indexed list satisfies the
lexicographic invariant: larger keys first, and on equal keys the earlier
discovery index first. -/
theorem insertionSort_lexQ {α : Type} (key : α → ℤ) (idx : α → ℕ) :
    ∀ l : List α, l.Pairwise (fun x y => idx x < idx y) →
      (List.insertionSort (keyDesc key) l).Pairwise (lexQ key idx) := by
  intro l
  induction l with
  | nil =>
    intro _
    exact List.Pairwise.nil
  | cons a t ih =>
    intro hp
    rw [List.insertionSort]
    apply orderedInsert_lexQ
    · exact ih (List.pairwise_cons.mp hp).2
    · intro y hy
      exact (List.pairwise_cons.mp hp).1 y
        (((List.perm_insertionSort (keyDesc key) t).mem_iff).mp hy)

/-- Stripping the ghost indices from the enumerated records gives the
plain records. -/
theorem enumDC_map_snd (cs : List Contour) :
    (enumDC cs).map Prod.snd = cs.map mkDC := by
  rw [enumDC, List.map_map]
  have hcomp : (Prod.snd ∘ fun ic : ℕ × Contour => (ic.1, mkDC ic.2))
      = mkDC ∘ Prod.snd := rfl
  rw [hcomp, ← List.map_map, List.enum_map_snd]

/-- The enumerated records carry strictly increasing discovery indices. -/
theorem enumDC_pairwise (cs : List Contour) :
    (enumDC cs).Pairwise (fun a b => a.1 < b.1) := by
  rw [enumDC, List.pairwise_map]
  have h := List.pairwise_lt_range cs.length
  rw [← List.enum_map_fst cs, List.pairwise_map] at h
  exact h

/-- Stripping the ghost indices from the indexed selection gives exactly
the selection of read_digits. -/
theorem selectE_map_snd (cs : List Contour) :
    (selectContoursE cs).map Prod.snd = selectContours cs := by
  rw [selectContoursE, selectContours]
  have hsorted : (List.insertionSort (keyDesc areaKeyE) (enumDC cs)).map Prod.snd
      = List.insertionSort (keyDesc dcArea) (cs.map mkDC) := by
    rw [insertionSort_map_rel Prod.snd (keyDesc dcArea) (keyDesc areaKeyE)
      (fun _ _ => Iff.rfl), enumDC_map_snd]
  have hlen : (List.insertionSort (keyDesc areaKeyE) (enumDC cs)).length
      = (List.insertionSort (keyDesc dcArea) (cs.map mkDC)).length := by
    rw [← hsorted, List.length_map]
  by_cases h4 : 4 < (List.insertionSort (keyDesc areaKeyE) (enumDC cs)).length
  · have h4' : 4 < (List.insertionSort (keyDesc dcArea) (cs.map mkDC)).length := by
      omega
    rw [if_pos h4, if_pos h4',
      insertionSort_map_rel Prod.snd (keyAsc dcX) (keyAsc xKeyE) (fun _ _ => Iff.rfl),
      List.map_take, hsorted]
  · have h4' : ¬ 4 < (List.insertionSort (keyDesc dcArea) (cs.map mkDC)).length := by
      omega
    rw [if_neg h4, if_neg h4',
      insertionSort_map_rel Prod.snd (keyAsc dcX) (keyAsc xKeyE) (fun _ _ => Iff.rfl),
      hsorted]

/-- Claim C5: the retained records are always left to right sorted by the
x of the left edge; and with more than 4 candidate contours, exactly 4 are
kept: every discarded record has area at most that of every kept record,
an area tie is broken in favor of the earlier discovery index, and the
final selection is a permutation of the kept records. -/
theorem glyph_prune_and_order :
    (∀ cs : List Contour, (selectContours cs).Sorted (keyAsc dcX)) ∧
    (∀ cs : List Contour, 4 < cs.length →
      ∃ kept dropped : List (ℕ × DC),
        kept.length = 4 ∧
        (kept ++ dropped).Perm (enumDC cs) ∧
        (∀ r ∈ kept, ∀ d ∈ dropped,
          dcArea d.2 ≤ dcArea r.2 ∧ (dcArea d.2 = dcArea r.2 → r.1 < d.1)) ∧
        (selectContoursE cs).Perm kept ∧
        (selectContoursE cs).map Prod.snd = selectContours cs) := by
  constructor
  · intro cs
    rw [selectContours]
    exact List.sorted_insertionSort (keyAsc dcX) _
  · intro cs h4
    have hslen : (List.insertionSort (keyDesc areaKeyE) (enumDC cs)).length
        = cs.length := by
      rw [(List.perm_insertionSort _ _).length_eq, enumDC, List.length_map,
        List.enum_length]
    have hQ : (List.insertionSort (keyDesc areaKeyE) (enumDC cs)).Pairwise
        (lexQ areaKeyE Prod.fst) :=
      insertionSort_lexQ areaKeyE Prod.fst _ (enumDC_pairwise cs)
    refine ⟨(List.insertionSort (keyDesc areaKeyE) (enumDC cs)).take 4,
      (List.insertionSort (keyDesc areaKeyE) (enumDC cs)).drop 4,
      ?_, ?_, ?_, ?_, selectE_map_snd cs⟩
    · rw [List.length_take]
      omega
    · rw [List.take_append_drop]
      exact List.perm_insertionSort _ _
    · have hQ2 : ((List.insertionSort (keyDesc areaKeyE) (enumDC cs)).take 4 ++
          (List.insertionSort (keyDesc areaKeyE) (enumDC cs)).drop 4).Pairwise
          (lexQ areaKeyE Prod.fst) := by
        rw [List.take_append_drop]
        exact hQ
      have hsplit := (List.pairwise_append.mp hQ2).2.2
      intro r hr d hd
      rcases hsplit r hr d hd with hlt | ⟨heq, hidx⟩
      · refine ⟨le_of_lt hlt, fun he => absurd hlt ?_⟩
        have he' : areaKeyE d = areaKeyE r := he
        rw [he']
        exact lt_irrefl _
      · exact ⟨le_of_eq heq.symm, fun _ => hidx⟩
    · rw [selectContoursE, if_pos (by omega : 4 <
        (List.insertionSort (keyDesc areaKeyE) (enumDC cs)).length)]
      exact List.perm_insertionSort _ _

/-- Witness for C5 at five contours of areas 1, 4, 9, 16, 25. -/
theorem glyph_prune_and_order_witness :
    (selectContours [(0, 0, 1, 1), (10, 0, 2, 2), (20, 0, 3, 3), (30, 0, 4, 4),
      (40, 0, 5, 5)]).Sorted (keyAsc dcX) ∧
    4 < ([(0, 0, 1, 1), (10, 0, 2, 2), (20, 0, 3, 3), (30, 0, 4, 4),
      (40, 0, 5, 5)] : List Contour).length ∧
    (∃ kept dropped : List (ℕ × DC),
      kept.length = 4 ∧
      (kept ++ dropped).Perm (enumDC [(0, 0, 1, 1), (10, 0, 2, 2), (20, 0, 3, 3),
        (30, 0, 4, 4), (40, 0, 5, 5)]) ∧
      (∀ r ∈ kept, ∀ d ∈ dropped,
        dcArea d.2 ≤ dcArea r.2 ∧ (dcArea d.2 = dcArea r.2 → r.1 < d.1)) ∧
      (selectContoursE [(0, 0, 1, 1), (10, 0, 2, 2), (20, 0, 3, 3), (30, 0, 4, 4),
        (40, 0, 5, 5)]).Perm kept ∧
      (selectContoursE [(0, 0, 1, 1), (10, 0, 2, 2), (20, 0, 3, 3), (30, 0, 4, 4),
        (40, 0, 5, 5)]).map Prod.snd
        = selectContours [(0, 0, 1, 1), (10, 0, 2, 2), (20, 0, 3, 3), (30, 0, 4, 4),
          (40, 0, 5, 5)]) :=
  ⟨glyph_prune_and_order.1 [(0, 0, 1, 1), (10, 0, 2, 2), (20, 0, 3, 3), (30, 0, 4, 4),
     (40, 0, 5, 5)],
   by decide,
   glyph_prune_and_order.2 [(0, 0, 1, 1), (10, 0, 2, 2), (20, 0, 3, 3), (30, 0, 4, 4),
     (40, 0, 5, 5)] (by decide)⟩

end SIP
